import Mathlib

/-!
Shallow embedding of the concurrency primitives of the lock-learning
repository (src/arc.rs, src/mutex.rs, src/condition_variable.rs,
src/read_write_lock.rs).

Atomic read-modify-write operations are serialized: each operation sees the
then-current value of the shared word, which is the linearization of the
atomic instructions involved.  Machine words are modelled as Nat; wraparound
is made explicit with `% 2 ^ 32` for the u32 words of mutex.rs and
read_write_lock.rs, while the usize counters of arc.rs are guarded by the
source's own abort/assert checks at usize::MAX / 2, so they never reach the
wrap point in any step that completes.  Memory orderings are transcribed as
data so that claims about them can be stated.
-/

namespace LockLearning

def u32Mod : Nat := 2 ^ 32

def u32Max : Nat := 2 ^ 32 - 1

def usizeMax : Nat := 2 ^ 64 - 1

def usizeHalf : Nat := usizeMax / 2

/-- Memory orderings, transcribed as plain data. -/
inductive MemOrder
  | relaxed
  | acquire
  | release
  | acqRel
  | seqCst
  deriving DecidableEq

/-- The atomic instructions of `impl Drop for Arc<T>` (arc.rs:207-226),
transcribed: the ordering of the strong-count fetch_sub, and the fences on
the terminal (previous value 1) and non-terminal paths. -/
structure ArcDropCode where
  fetchSubOrder : MemOrder
  fenceOnTerminal : Option MemOrder
  fenceOnNonTerminal : Option MemOrder
  deriving DecidableEq

/-- arc.rs:209 is `data_ref_count.fetch_sub(1, Relaxed)`; arc.rs:210 is
`fence(Acquire)` inside the `== 1` branch; the other path has no fence. -/
def arcDropCode : ArcDropCode :=
  { fetchSubOrder := .relaxed
    fenceOnTerminal := some .acquire
    fenceOnNonTerminal := none }

/-- arc.rs:198 is `alloc_ref_count.fetch_sub(1, Release)` in Weak::drop. -/
def weakDropFetchSubOrder : MemOrder := .release

/-- arc.rs:171 is `data_ref_count.fetch_add(1, Relaxed)` in Arc::clone. -/
def arcCloneFetchAddOrder : MemOrder := .relaxed

/-- State of one ArcData<T> allocation block (arc.rs:12-19) together with
event counters for the effects the claims talk about.  `strong` models
`data_ref_count`, `weak` models `alloc_ref_count`; `destroyCount` counts how
many times the payload destructor has run and `freeCount` how many times the
allocation block has been freed. -/
structure RC where
  strong : Nat
  weak : Nat
  destroyCount : Nat
  freeCount : Nat
  deriving DecidableEq

/-- `impl Drop for Weak<T>` (arc.rs:178-205): `alloc_ref_count.fetch_sub(1,
Release)`; if the previous value was 1, free the allocation block. -/
def weakDropFn (d : RC) : RC :=
  if d.weak = 1 then
    { d with weak := d.weak - 1, freeCount := d.freeCount + 1 }
  else
    { d with weak := d.weak - 1 }

/-- `impl Drop for Arc<T>` (arc.rs:207-226): `data_ref_count.fetch_sub(1,
Relaxed)`; if the previous value was 1, destroy the payload in place and then
drop the implicit weak unit (one Weak::drop). -/
def arcDropFn (d : RC) : RC :=
  if d.strong = 1 then
    weakDropFn { d with strong := d.strong - 1, destroyCount := d.destroyCount + 1 }
  else
    { d with strong := d.strong - 1 }

/-- `impl Clone for Arc<T>` (arc.rs:169-176): `data_ref_count.fetch_add(1,
Relaxed)`; abort the process (`none`) iff the pre-increment value exceeds
`usize::MAX / 2`. -/
def arcCloneFn (d : RC) : Option RC :=
  if usizeHalf < d.strong then none
  else some { d with strong := d.strong + 1 }

/-- `impl Clone for Weak<T>` (arc.rs:157-167): `alloc_ref_count.fetch_add(1,
Relaxed)`; abort the process (`none`) iff the pre-increment value exceeds
`usize::MAX / 2`.  The returned handle carries the same `ptr`, i.e. it points
at the same allocation block. -/
def weakCloneFn (d : RC) : Option RC :=
  if usizeHalf < d.weak then none
  else some { d with weak := d.weak + 1 }

/-- Result of Weak::upgrade. -/
inductive UpgradeRes
  | dead
  | assertFailed
  | ok (d : RC)
  deriving DecidableEq

def UpgradeRes.isOk : UpgradeRes → Bool
  | .ok _ => true
  | _ => false

def UpgradeRes.isAssertFailed : UpgradeRes → Bool
  | .assertFailed => true
  | _ => false

/-- `Weak::upgrade` (arc.rs:40-57), serialized (the compare_exchange_weak
succeeds against the value just loaded): return `dead` if the observed strong
count is 0; fail the `assert!(n <= usize::MAX / 2)` otherwise when the
observed value exceeds half the range; otherwise increment the strong count
by one and return a new strong handle. -/
def upgradeFn (d : RC) : UpgradeRes :=
  if d.strong = 0 then .dead
  else if usizeHalf < d.strong then .assertFailed
  else .ok { d with strong := d.strong + 1 }

/-- `Arc::downgrade` (arc.rs:120-141), serialized: between whole operations
`alloc_ref_count` is never the usize::MAX sentinel (get_mut restores it
before returning), so the spin branch is not taken; `assert!(n <= usize::MAX
/ 2)` fails (`none`) when the observed weak count exceeds half the range;
otherwise increment the weak count by one and return a new weak handle. -/
def downgradeFn (d : RC) : Option RC :=
  if usizeHalf < d.weak then none
  else some { d with weak := d.weak + 1 }

/-- Result of Arc::get_mut. -/
structure GetMutRun where
  granted : Bool
  sentinelInstalled : Bool
  finalStrong : Nat
  finalWeak : Nat
  deriving DecidableEq

/-- `Arc::get_mut` (arc.rs:86-118): compare_exchange `alloc_ref_count` from 1
to usize::MAX (the sentinel); on failure return `None` touching nothing; on
success load `data_ref_count`, store `alloc_ref_count` back to 1, and grant
access iff the loaded strong count was 1. -/
def getMutFn (strong weak : Nat) : GetMutRun :=
  if weak = 1 then
    { granted := decide (strong = 1)
      sentinelInstalled := true
      finalStrong := strong
      finalWeak := 1 }
  else
    { granted := false
      sentinelInstalled := false
      finalStrong := strong
      finalWeak := weak }

/-- Events of one call to Arc::get_mut, in program order. -/
inductive GmEvent
  | casAlloc (expected newv : Nat) (success : Bool)
  | loadStrong (n : Nat)
  | storeAlloc (v : Nat)
  | ret (granted : Bool)
  deriving DecidableEq

/-- The event trace of `Arc::get_mut` (arc.rs:86-118) in program order. -/
def getMutTrace (strong weak : Nat) : List GmEvent :=
  if weak = 1 then
    [.casAlloc 1 usizeMax true, .loadStrong strong, .storeAlloc 1,
      .ret (decide (strong = 1))]
  else
    [.casAlloc 1 usizeMax false, .ret false]

/-- The operations a client can invoke on one allocation block. -/
inductive RcOp
  | cloneA
  | dropA
  | cloneW
  | dropW
  | upgradeA
  | downgradeA
  | getMutA
  deriving DecidableEq

/-- A configuration: the shared block plus how many live strong and weak
handles the clients hold.  An operation is enabled only when a handle of the
kind it is called on exists. -/
structure Config where
  rc : RC
  nStrong : Nat
  nWeak : Nat
  deriving DecidableEq

/-- One serialized client operation.  `none` means the operation is not
enabled (no handle to call it on) or the process died (abort in clone, assert
failure in upgrade/downgrade). -/
def stepOp (c : Config) : RcOp → Option Config
  | .cloneA =>
    if c.nStrong = 0 then none
    else
      match arcCloneFn c.rc with
      | none => none
      | some d => some { rc := d, nStrong := c.nStrong + 1, nWeak := c.nWeak }
  | .dropA =>
    if c.nStrong = 0 then none
    else some { rc := arcDropFn c.rc, nStrong := c.nStrong - 1, nWeak := c.nWeak }
  | .cloneW =>
    if c.nWeak = 0 then none
    else
      match weakCloneFn c.rc with
      | none => none
      | some d => some { rc := d, nStrong := c.nStrong, nWeak := c.nWeak + 1 }
  | .dropW =>
    if c.nWeak = 0 then none
    else some { rc := weakDropFn c.rc, nStrong := c.nStrong, nWeak := c.nWeak - 1 }
  | .upgradeA =>
    if c.nWeak = 0 then none
    else
      match upgradeFn c.rc with
      | .dead => some c
      | .assertFailed => none
      | .ok d => some { rc := d, nStrong := c.nStrong + 1, nWeak := c.nWeak }
  | .downgradeA =>
    if c.nStrong = 0 then none
    else
      match downgradeFn c.rc with
      | none => none
      | some d => some { rc := d, nStrong := c.nStrong, nWeak := c.nWeak + 1 }
  | .getMutA =>
    if c.nStrong = 0 then none
    else some c

/-- Run a list of operations in order; `none` as soon as one step dies. -/
def runOps : List RcOp → Config → Option Config
  | [], c => some c
  | op :: ops, c =>
    match stepOp c op with
    | none => none
    | some c2 => runOps ops c2

/-- `Arc::new` (arc.rs:61-71): strong = 1, weak = 1 (the implicit unit),
one strong handle, no weak handles. -/
def initConfig : Config :=
  { rc := { strong := 1, weak := 1, destroyCount := 0, freeCount := 0 }
    nStrong := 1
    nWeak := 0 }

/-- Invariant tying the shared counters to the handle census: the strong
count equals the number of strong handles; the weak count equals the number
of weak handles plus the implicit unit while any strong handle lives; the
payload has been destroyed exactly once iff the strong count has reached 0;
the block has been freed exactly once iff both counts of handles are gone. -/
def Inv (c : Config) : Prop :=
  c.rc.strong = c.nStrong ∧
  c.rc.weak = c.nWeak + min c.nStrong 1 ∧
  c.rc.destroyCount = 1 - min c.nStrong 1 ∧
  c.rc.freeCount = 1 - min (c.nStrong + c.nWeak) 1

/-- Events of one MutexGuard release (mutex.rs:91-98). -/
inductive MuEvent
  | swapState (newv prev : Nat)
  | wakeOne
  deriving DecidableEq

/-- `impl Drop for MutexGuard` (mutex.rs:91-98): `state.swap(0, Release)`;
if the previous value was 2, `wake_one(&state)`.  `prev` is the value the
state word held when the swap executed. -/
def mutexGuardDrop (prev : Nat) : List MuEvent :=
  .swapState 0 prev :: (if prev = 2 then [.wakeOne] else [])

/-- Effect of a MuEvent on the mutex state word. -/
def applyMu (s : Nat) : MuEvent → Nat
  | .swapState newv _ => newv
  | .wakeOne => s

/-- Events of a Condvar call (condition_variable.rs), in program order.
Mutexes are identified by a number so that "reacquires the same Mutex" can be
stated. -/
inductive CvEvent
  | loadCounter (v : Nat)
  | unlockMutex (mid : Nat)
  | futexWaitCounter (expected : Nat)
  | lockMutex (mid : Nat)
  | fetchAddCounter (prev : Nat)
  | wakeOneCounter
  | wakeAllCounter
  deriving DecidableEq

/-- `Condvar::wait` (condition_variable.rs:28-37): load the generation
counter (the snapshot), drop the incoming guard (which unlocks its mutex),
`wait(&self.counter, counter_value)`, then lock the same mutex again and
return the new guard.  `counterVal` is the counter value at the load and
`mid` identifies the mutex of the incoming guard; the second component is the
mutex of the returned guard. -/
def condvarWait (counterVal mid : Nat) : List CvEvent × Nat :=
  ([.loadCounter counterVal, .unlockMutex mid, .futexWaitCounter counterVal,
     .lockMutex mid], mid)

/-- `Condvar::notify_one` (condition_variable.rs:18-21): fetch_add(1) on the
counter, then `wake_one(&self.counter)`.  Second component: the new counter
value (u32 wraparound explicit). -/
def notifyOne (c : Nat) : List CvEvent × Nat :=
  ([.fetchAddCounter c, .wakeOneCounter], (c + 1) % u32Mod)

/-- `Condvar::notify_all` (condition_variable.rs:23-26): fetch_add(1) on the
counter, then `wake_all(&self.counter)`. -/
def notifyAll (c : Nat) : List CvEvent × Nat :=
  ([.fetchAddCounter c, .wakeAllCounter], (c + 1) % u32Mod)

/-- Result of one ReadGuard release (read_write_lock.rs:38-46):
the new state word, and whether the writer wake path (fetch_add(1) on
`writer_wake_counter` followed by `wake_one` on it) was taken. -/
structure ReadRelease where
  newState : Nat
  wakeWriter : Bool
  deriving DecidableEq

/-- `impl Drop for ReadGuard` (read_write_lock.rs:38-46):
`state.fetch_sub(2, Release)`; iff the previous value was 3 (one writer
waiting plus one remaining reader), increment `writer_wake_counter` and
`wake_one` on it.  Subtraction is the u32 two-complement one, written as an
explicit modulus. -/
def readGuardDrop (prev : Nat) : ReadRelease :=
  { newState := (prev + (u32Mod - 2)) % u32Mod
    wakeWriter := decide (prev = 3) }

/-- Outcome of one iteration of RwLock::read's loop. -/
inductive RdOutcome
  | assertFailed
  | acquired (newState : Nat)
  | again (s2 : Nat)
  | waitedAgain (expected resumed : Nat)
  deriving DecidableEq

def RdOutcome.isAssertFailed : RdOutcome → Bool
  | .assertFailed => true
  | _ => false

/-- One iteration of `RwLock::read`'s loop (read_write_lock.rs:83-102).
`s` is the thread's current observation of the state word, `a1` the value the
state word holds when the compare_exchange_weak executes, `a2` the value
loaded after a futex wait returns.  The even branch runs first: it contains
`assert_ne!(s, u32::MAX - 2, "too many readers")` and then the CAS from `s`
to `s + 2` (u32 wrap explicit); on CAS failure the observation becomes `a1`
and the odd branch of the same iteration runs on it; the odd branch does
`wait(&state, s)` and reloads. -/
def readIter (s a1 a2 : Nat) : RdOutcome :=
  if s % 2 = 0 then
    if s = u32Max - 2 then .assertFailed
    else if a1 = s then .acquired ((s + 2) % u32Mod)
    else if a1 % 2 = 1 then .waitedAgain a1 a2
    else .again a1
  else .waitedAgain s a2

/-- Events of one iteration of RwLock::write's loop, in program order. -/
inductive WrEvent
  | casWriteLock (expected target : Nat) (success : Bool)
  | casSetWaitBit (expected newv : Nat) (success : Bool)
  | loadWakeCounter (w : Nat)
  | loadState (v : Nat)
  | futexWaitWriter (expected : Nat)
  deriving DecidableEq

/-- Outcome of one iteration of RwLock::write's loop. -/
inductive WrOutcome
  | acquired
  | again (s2 : Nat)
  deriving DecidableEq

/-- The tail of a write-loop iteration (read_write_lock.rs:128-133): load
`writer_wake_counter` into `w`; if a fresh load of the state word (`a3`) is
at least 2, `wait(&writer_wake_counter, w)` and continue the loop with the
state reloaded after the wake (`a4`); otherwise continue with the cached
observation `s` unchanged. -/
def waitPart (w a3 a4 s : Nat) : List WrEvent × WrOutcome :=
  if 2 ≤ a3 then
    ([.loadWakeCounter w, .loadState a3, .futexWaitWriter w], .again a4)
  else
    ([.loadWakeCounter w, .loadState a3], .again s)

/-- One iteration of `RwLock::write`'s loop (read_write_lock.rs:104-135).
`s` is the cached observation; `a1` the state value when the write-lock CAS
executes; `a2` the state value when the wait-bit CAS executes; `w` the value
loaded from `writer_wake_counter`; `a3` the state value at the contention
check; `a4` the state reloaded after the futex wait.  When `s <= 1` the code
tries compare_exchange from `s` to u32::MAX (the write-locked sentinel) and
returns a WriteGuard on success; otherwise, when `s` is even, it tries
compare_exchange from `s` to `s + 1` to set the writer-waiting bit, retrying
from the top on failure; then it falls into the wait part. -/
def writeIter (s a1 a2 w a3 a4 : Nat) : List WrEvent × WrOutcome :=
  if s ≤ 1 then
    if a1 = s then ([.casWriteLock s u32Max true], .acquired)
    else ([.casWriteLock s u32Max false], .again a1)
  else if s % 2 = 0 then
    if a2 = s then
      (.casSetWaitBit s (s + 1) true :: (waitPart w a3 a4 s).1, (waitPart w a3 a4 s).2)
    else ([.casSetWaitBit s (s + 1) false], .again a2)
  else waitPart w a3 a4 s

theorem inv_step {c c2 : Config} {op : RcOp} (h : Inv c) (hs : stepOp c op = some c2) :
    Inv c2 := by
  obtain ⟨h1, h2, h3, h4⟩ := h
  cases op with
  | cloneA =>
    simp only [stepOp] at hs
    split at hs
    · exact Option.noConfusion hs
    next hn =>
      split at hs
      · exact Option.noConfusion hs
      next d heq =>
        unfold arcCloneFn at heq
        split at heq
        · exact Option.noConfusion heq
        injection heq with heq2
        subst heq2
        injection hs with hs2
        subst hs2
        simp only [Inv]
        omega
  | dropA =>
    simp only [stepOp] at hs
    split at hs
    · exact Option.noConfusion hs
    next hn =>
      injection hs with hs2
      subst hs2
      simp only [Inv, arcDropFn, weakDropFn]
      split_ifs <;> (dsimp only; omega)
  | cloneW =>
    simp only [stepOp] at hs
    split at hs
    · exact Option.noConfusion hs
    next hn =>
      split at hs
      · exact Option.noConfusion hs
      next d heq =>
        unfold weakCloneFn at heq
        split at heq
        · exact Option.noConfusion heq
        injection heq with heq2
        subst heq2
        injection hs with hs2
        subst hs2
        simp only [Inv]
        omega
  | dropW =>
    simp only [stepOp] at hs
    split at hs
    · exact Option.noConfusion hs
    next hn =>
      injection hs with hs2
      subst hs2
      simp only [Inv, weakDropFn]
      split_ifs <;> (dsimp only; omega)
  | upgradeA =>
    simp only [stepOp] at hs
    split at hs
    · exact Option.noConfusion hs
    next hn =>
      split at hs
      next heq =>
        injection hs with hs2
        subst hs2
        exact ⟨h1, h2, h3, h4⟩
      next heq => exact Option.noConfusion hs
      next d heq =>
        unfold upgradeFn at heq
        split at heq
        · exact UpgradeRes.noConfusion heq
        split at heq
        · exact UpgradeRes.noConfusion heq
        injection heq with heq2
        subst heq2
        injection hs with hs2
        subst hs2
        simp only [Inv]
        omega
  | downgradeA =>
    simp only [stepOp] at hs
    split at hs
    · exact Option.noConfusion hs
    next hn =>
      split at hs
      · exact Option.noConfusion hs
      next d heq =>
        unfold downgradeFn at heq
        split at heq
        · exact Option.noConfusion heq
        injection heq with heq2
        subst heq2
        injection hs with hs2
        subst hs2
        simp only [Inv]
        omega
  | getMutA =>
    simp only [stepOp] at hs
    split at hs
    · exact Option.noConfusion hs
    injection hs with hs2
    subst hs2
    exact ⟨h1, h2, h3, h4⟩

theorem inv_run {ops : List RcOp} {c c2 : Config} (h : Inv c)
    (hr : runOps ops c = some c2) : Inv c2 := by
  induction ops generalizing c with
  | nil =>
    unfold runOps at hr
    injection hr with h5
    subst h5
    exact h
  | cons op ops ih =>
    unfold runOps at hr
    split at hr
    · exact Option.noConfusion hr
    next c3 heq => exact ih (inv_step h heq) hr

theorem inv_init : Inv initConfig := by simp [Inv, initConfig]

theorem upgrade_dead_of_zero {d : RC} (h : d.strong = 0) : upgradeFn d = .dead := by
  unfold upgradeFn
  rw [if_pos h]

theorem strong_zero_step {c c2 : Config} {op : RcOp} (h0 : c.rc.strong = 0)
    (hn0 : c.nStrong = 0) (hs : stepOp c op = some c2) :
    c2.rc.strong = 0 ∧ c2.nStrong = 0 := by
  cases op with
  | cloneA =>
    simp only [stepOp] at hs
    rw [if_pos hn0] at hs
    exact Option.noConfusion hs
  | dropA =>
    simp only [stepOp] at hs
    rw [if_pos hn0] at hs
    exact Option.noConfusion hs
  | cloneW =>
    simp only [stepOp] at hs
    split at hs
    · exact Option.noConfusion hs
    split at hs
    · exact Option.noConfusion hs
    next d heq =>
      unfold weakCloneFn at heq
      split at heq
      · exact Option.noConfusion heq
      injection heq with heq2
      subst heq2
      injection hs with hs2
      subst hs2
      exact ⟨h0, hn0⟩
  | dropW =>
    simp only [stepOp] at hs
    split at hs
    · exact Option.noConfusion hs
    injection hs with hs2
    subst hs2
    refine ⟨?_, hn0⟩
    simp only [weakDropFn]
    split_ifs <;> exact h0
  | upgradeA =>
    simp only [stepOp] at hs
    split at hs
    · exact Option.noConfusion hs
    rw [upgrade_dead_of_zero h0] at hs
    injection hs with hs2
    subst hs2
    exact ⟨h0, hn0⟩
  | downgradeA =>
    simp only [stepOp] at hs
    rw [if_pos hn0] at hs
    exact Option.noConfusion hs
  | getMutA =>
    simp only [stepOp] at hs
    rw [if_pos hn0] at hs
    exact Option.noConfusion hs

theorem strong_zero_run {ops : List RcOp} {c c2 : Config} (h0 : c.rc.strong = 0)
    (hn0 : c.nStrong = 0) (hr : runOps ops c = some c2) :
    c2.rc.strong = 0 ∧ c2.nStrong = 0 := by
  induction ops generalizing c with
  | nil =>
    unfold runOps at hr
    injection hr with h5
    subst h5
    exact ⟨h0, hn0⟩
  | cons op ops ih =>
    unfold runOps at hr
    split at hr
    · exact Option.noConfusion hr
    next c3 heq =>
      obtain ⟨g0, gn0⟩ := strong_zero_step h0 hn0 heq
      exact ih g0 gn0 hr

/-- C1: for every allocation block the payload is destroyed exactly once, at
the strong-count 1 → 0 transition.  Locally: Arc::drop decrements the strong
count by one and, iff the previous value was 1, destroys the payload in place
and then performs exactly one weak-count drop (the implicit unit); Weak::drop
decrements the weak count by one and frees the block iff the previous value
was 1.  Globally, over every serialized sequence of clone / drop / upgrade /
downgrade / get_mut calls starting from Arc::new: the destructor runs at most
once, it has run exactly once iff the strong count has reached 0, and the
block is freed only after the payload was destroyed (free count never exceeds
destroy count). -/
theorem c1_payload_destroyed_once :
    (∀ d : RC, (arcDropFn d).strong = d.strong - 1
      ∧ (d.strong = 1 →
          (arcDropFn d).destroyCount = d.destroyCount + 1
          ∧ (arcDropFn d).weak = d.weak - 1)
      ∧ (d.strong ≠ 1 →
          (arcDropFn d).destroyCount = d.destroyCount
          ∧ (arcDropFn d).weak = d.weak ∧ (arcDropFn d).freeCount = d.freeCount))
  ∧ (∀ d : RC, (weakDropFn d).weak = d.weak - 1
      ∧ ((weakDropFn d).freeCount = d.freeCount + 1 ↔ d.weak = 1))
  ∧ (∀ ops : List RcOp, ∀ c : Config, runOps ops initConfig = some c →
      c.rc.destroyCount ≤ 1
      ∧ c.rc.freeCount ≤ c.rc.destroyCount
      ∧ (c.rc.destroyCount = 1 ↔ c.rc.strong = 0)) := by
  refine ⟨fun d => ?_, fun d => ?_, fun ops c hr => ?_⟩
  · refine ⟨?_, fun h => ?_, fun h => ?_⟩ <;>
      (unfold arcDropFn weakDropFn; split_ifs <;> (dsimp only; try omega))
  · unfold weakDropFn
    split_ifs <;> (dsimp only; refine ⟨rfl, ?_⟩; omega)
  · obtain ⟨h1, h2, h3, h4⟩ := inv_run inv_init hr
    omega

/-- Witness for c1_payload_destroyed_once at concrete inputs: a block with
strong = weak = 1 dropped through Arc::drop, and the run of one dropA from
the initial configuration. -/
theorem c1_witness :
    ((arcDropFn ⟨1, 1, 0, 0⟩).destroyCount = 0 + 1
      ∧ (arcDropFn ⟨1, 1, 0, 0⟩).weak = 1 - 1)
    ∧ (⟨⟨0, 0, 1, 1⟩, 0, 0⟩ : Config).rc.destroyCount ≤ 1 :=
  ⟨(c1_payload_destroyed_once.1 ⟨1, 1, 0, 0⟩).2.1 rfl,
    (c1_payload_destroyed_once.2.2 [RcOp.dropA] ⟨⟨0, 0, 1, 1⟩, 0, 0⟩ (by decide)).1⟩

/-- C2: Weak::upgrade returns a new strong handle iff the strong count
observed in its CAS loop is positive (within the asserted bound usize::MAX/2,
past which the code refuses by assertion instead); on success it increments
the strong count by exactly one and touches nothing else; when the observed
strong count is 0 it returns dead; and permanently so: in every serialized
execution from Arc::new, once the strong count is 0 no later operation makes
it nonzero and upgrade keeps returning dead. -/
theorem c2_upgrade_iff_strong_pos :
    (∀ d : RC, d.strong ≤ usizeHalf → ((upgradeFn d).isOk = true ↔ 0 < d.strong))
  ∧ (∀ d d2 : RC, upgradeFn d = .ok d2 →
      d2.strong = d.strong + 1 ∧ d2.weak = d.weak)
  ∧ (∀ d : RC, d.strong = 0 → upgradeFn d = .dead)
  ∧ (∀ ops0 : List RcOp, ∀ c : Config, runOps ops0 initConfig = some c →
      c.rc.strong = 0 →
      ∀ ops : List RcOp, ∀ c2 : Config, runOps ops c = some c2 →
        c2.rc.strong = 0 ∧ upgradeFn c2.rc = .dead) := by
  refine ⟨fun d hle => ?_, fun d d2 h => ?_, fun d h => upgrade_dead_of_zero h,
    fun ops0 c hr h0 ops c2 hr2 => ?_⟩
  · unfold upgradeFn
    split_ifs with ha hb <;> simp [UpgradeRes.isOk] <;> omega
  · unfold upgradeFn at h
    split_ifs at h
    injection h with h2
    subst h2
    exact ⟨rfl, rfl⟩
  · have hi := inv_run inv_init hr
    have hn0 : c.nStrong = 0 := by have := hi.1; omega
    obtain ⟨g0, _⟩ := strong_zero_run h0 hn0 hr2
    exact ⟨g0, upgrade_dead_of_zero g0⟩

/-- Witness for c2_upgrade_iff_strong_pos: a live block with strong = 1, and
the run downgrade-then-drop reaching strong = 0, after which one more
upgrade step leaves the strong count at 0. -/
theorem c2_witness :
    ((upgradeFn ⟨1, 1, 0, 0⟩).isOk = true ↔ 0 < (⟨1, 1, 0, 0⟩ : RC).strong)
    ∧ ((⟨⟨0, 1, 1, 0⟩, 0, 1⟩ : Config).rc.strong = 0
        ∧ upgradeFn (⟨⟨0, 1, 1, 0⟩, 0, 1⟩ : Config).rc = .dead) :=
  ⟨c2_upgrade_iff_strong_pos.1 ⟨1, 1, 0, 0⟩ (by decide),
    c2_upgrade_iff_strong_pos.2.2.2 [RcOp.downgradeA, RcOp.dropA]
      ⟨⟨0, 1, 1, 0⟩, 0, 1⟩ (by decide) rfl [RcOp.upgradeA]
      ⟨⟨0, 1, 1, 0⟩, 0, 1⟩ (by decide)⟩

/-- C10: Weak::clone increments the weak (allocation) count by exactly one
and returns a handle to the same block, aborting iff the pre-increment count
exceeded half the representable range; it never touches the strong count and
never makes a dead payload reachable (after cloning a weak handle of a dead
block, upgrade still returns dead). -/
theorem c10_weak_clone :
    (∀ d : RC, (weakCloneFn d).isNone = decide (usizeHalf < d.weak))
  ∧ (∀ d d2 : RC, weakCloneFn d = some d2 →
      d2.weak = d.weak + 1 ∧ d2.strong = d.strong
      ∧ d2.destroyCount = d.destroyCount ∧ d2.freeCount = d.freeCount)
  ∧ (∀ c c2 : Config, stepOp c .cloneW = some c2 →
      c2.rc.strong = c.rc.strong ∧ c2.nStrong = c.nStrong
      ∧ c2.nWeak = c.nWeak + 1 ∧ c2.rc.weak = c.rc.weak + 1)
  ∧ (∀ c c2 : Config, c.rc.strong = 0 → stepOp c .cloneW = some c2 →
      upgradeFn c2.rc = .dead) := by
  have step3 : ∀ c c2 : Config, stepOp c .cloneW = some c2 →
      c2.rc.strong = c.rc.strong ∧ c2.nStrong = c.nStrong
      ∧ c2.nWeak = c.nWeak + 1 ∧ c2.rc.weak = c.rc.weak + 1 := by
    intro c c2 hs
    simp only [stepOp] at hs
    split at hs
    · exact Option.noConfusion hs
    split at hs
    · exact Option.noConfusion hs
    next d heq =>
      unfold weakCloneFn at heq
      split at heq
      · exact Option.noConfusion heq
      injection heq with heq2
      subst heq2
      injection hs with hs2
      subst hs2
      exact ⟨rfl, rfl, rfl, rfl⟩
  refine ⟨fun d => ?_, fun d d2 h => ?_, step3, fun c c2 h0 hs => ?_⟩
  · unfold weakCloneFn
    split_ifs with h <;> simp [h]
  · unfold weakCloneFn at h
    split_ifs at h
    injection h with h2
    subst h2
    exact ⟨rfl, rfl, rfl, rfl⟩
  · have h3 := (step3 c c2 hs).1
    exact upgrade_dead_of_zero (h3.trans h0)

/-- Witness for c10_weak_clone: cloning the weak handle of a dead block
(strong = 0, weak = 1) adds one weak unit and upgrade stays dead. -/
theorem c10_witness :
    ((⟨⟨0, 2, 1, 0⟩, 0, 2⟩ : Config).rc.strong = (⟨⟨0, 1, 1, 0⟩, 0, 1⟩ : Config).rc.strong
      ∧ (⟨⟨0, 2, 1, 0⟩, 0, 2⟩ : Config).nStrong = (⟨⟨0, 1, 1, 0⟩, 0, 1⟩ : Config).nStrong
      ∧ (⟨⟨0, 2, 1, 0⟩, 0, 2⟩ : Config).nWeak = (⟨⟨0, 1, 1, 0⟩, 0, 1⟩ : Config).nWeak + 1
      ∧ (⟨⟨0, 2, 1, 0⟩, 0, 2⟩ : Config).rc.weak = (⟨⟨0, 1, 1, 0⟩, 0, 1⟩ : Config).rc.weak + 1)
    ∧ upgradeFn (⟨⟨0, 2, 1, 0⟩, 0, 2⟩ : Config).rc = .dead :=
  ⟨c10_weak_clone.2.2.1 ⟨⟨0, 1, 1, 0⟩, 0, 1⟩ ⟨⟨0, 2, 1, 0⟩, 0, 2⟩ (by decide),
    c10_weak_clone.2.2.2 ⟨⟨0, 1, 1, 0⟩, 0, 1⟩ ⟨⟨0, 2, 1, 0⟩, 0, 2⟩ rfl (by decide)⟩

/-- C3: Arc::get_mut returns an exclusive reference iff the weak (allocation)
count is exactly 1 (the CAS from 1 to the usize::MAX sentinel succeeds) and
the strong count is exactly 1; the sentinel is installed iff the weak count
is 1, and in every path where it was installed the weak count is stored back
to 1 before the return, whether or not access was granted; when access is
denied the call simply returns no access and both counters keep their
pre-call values. -/
theorem c3_get_mut :
    (∀ s w : Nat, ((getMutFn s w).granted = true ↔ (w = 1 ∧ s = 1)))
  ∧ (∀ s w : Nat, ((getMutFn s w).sentinelInstalled = true ↔ w = 1))
  ∧ (∀ s w : Nat, (getMutFn s w).sentinelInstalled = true →
      getMutTrace s w =
        [.casAlloc 1 usizeMax true, .loadStrong s, .storeAlloc 1,
          .ret (decide (s = 1))])
  ∧ (∀ s w : Nat, (getMutFn s w).granted = false →
      (getMutFn s w).finalStrong = s ∧ (getMutFn s w).finalWeak = w) := by
  refine ⟨fun s w => ?_, fun s w => ?_, fun s w h => ?_, fun s w h => ?_⟩
  · unfold getMutFn
    split_ifs with hw <;> simp [hw]
  · unfold getMutFn
    split_ifs with hw <;> simp [hw]
  · unfold getMutFn at h
    split_ifs at h with hw
    unfold getMutTrace
    rw [if_pos hw]
  · unfold getMutFn at *
    split_ifs at * with hw
    · exact ⟨rfl, hw.symm⟩
    · exact ⟨rfl, rfl⟩

/-- Witness for c3_get_mut: granted at (1, 1); sentinel path trace at strong
2, weak 1 (access denied but store-back still happens); untouched counters at
(2, 3). -/
theorem c3_witness :
    ((getMutFn 1 1).granted = true ↔ ((1 : Nat) = 1 ∧ (1 : Nat) = 1))
    ∧ getMutTrace 2 1 =
        [.casAlloc 1 usizeMax true, .loadStrong 2, .storeAlloc 1,
          .ret (decide ((2 : Nat) = 1))]
    ∧ ((getMutFn 2 3).finalStrong = 2 ∧ (getMutFn 2 3).finalWeak = 3) :=
  ⟨c3_get_mut.1 1 1, c3_get_mut.2.2.1 2 1 (by decide), c3_get_mut.2.2.2 2 3 (by decide)⟩

/-- C5: releasing a MutexGuard swaps the mutex state word to 0, issues
wake_one on the state word iff the value before the swap was 2 (locked with
waiters), and leaves the state at 0 whatever the prior value was; the swap is
the first event of the release. -/
theorem c5_mutex_release :
    ∀ prev s0 : Nat,
      List.foldl applyMu s0 (mutexGuardDrop prev) = 0
      ∧ (MuEvent.wakeOne ∈ mutexGuardDrop prev ↔ prev = 2)
      ∧ List.head? (mutexGuardDrop prev) = some (.swapState 0 prev) := by
  intro prev s0
  unfold mutexGuardDrop
  split_ifs with h <;> simp [applyMu, h]

/-- Witness for c5_mutex_release at prev = 2 and prev = 1. -/
theorem c5_witness :
    (List.foldl applyMu 2 (mutexGuardDrop 2) = 0
      ∧ (MuEvent.wakeOne ∈ mutexGuardDrop 2 ↔ (2 : Nat) = 2))
    ∧ (MuEvent.wakeOne ∈ mutexGuardDrop 1 ↔ (1 : Nat) = 2) :=
  ⟨⟨(c5_mutex_release 2 2).1, (c5_mutex_release 2 2).2.1⟩,
    (c5_mutex_release 1 0).2.1⟩

/-- C6: Condvar::wait snapshots the generation counter before the guard is
released (the mutex unlocked), then blocks via wait(counter, snapshot), and
on return reacquires the same mutex the guard came from, returning a guard
for it; notify_one and notify_all each increment the counter by one (modulo
2^32, hence exactly one below the wrap point) and then wake one / all on the
counter. -/
theorem c6_condvar :
    (∀ cv mid : Nat,
      (condvarWait cv mid).1 =
        [.loadCounter cv, .unlockMutex mid, .futexWaitCounter cv, .lockMutex mid]
      ∧ (condvarWait cv mid).2 = mid)
  ∧ (∀ cnt : Nat,
      notifyOne cnt = ([.fetchAddCounter cnt, .wakeOneCounter], (cnt + 1) % u32Mod))
  ∧ (∀ cnt : Nat,
      notifyAll cnt = ([.fetchAddCounter cnt, .wakeAllCounter], (cnt + 1) % u32Mod))
  ∧ (∀ cnt : Nat, cnt < u32Max →
      (notifyOne cnt).2 = cnt + 1 ∧ (notifyAll cnt).2 = cnt + 1) := by
  refine ⟨fun cv mid => ⟨rfl, rfl⟩, fun cnt => rfl, fun cnt => rfl, fun cnt h => ?_⟩
  have hlt : cnt + 1 < u32Mod := by
    unfold u32Max at h
    unfold u32Mod
    omega
  exact ⟨Nat.mod_eq_of_lt hlt, Nat.mod_eq_of_lt hlt⟩

/-- Witness for c6_condvar at counter 5, mutex 7. -/
theorem c6_witness :
    (condvarWait 5 7).2 = 7 ∧ (notifyOne 5).2 = 5 + 1 :=
  ⟨(c6_condvar.1 5 7).2, (c6_condvar.2.2.2 5 (by decide)).1⟩

/-- C7: releasing a ReadGuard subtracts 2 from the state word, and the writer
wake path (bump writer_wake_counter then wake_one on it) is taken iff the
pre-subtraction value is exactly 3 — one writer waiting plus one remaining
reader; for any other prior value no wake is issued. -/
theorem c7_read_release :
    ∀ prev : Nat,
      (readGuardDrop prev).wakeWriter = decide (prev = 3)
      ∧ (2 ≤ prev → prev < u32Mod →
          (readGuardDrop prev).newState = prev - 2) := by
  intro prev
  refine ⟨rfl, fun h2 hlt => ?_⟩
  unfold u32Mod at hlt
  unfold readGuardDrop u32Mod
  dsimp only
  omega

/-- Witness for c7_read_release at prev = 3 (the tie-break value). -/
theorem c7_witness :
    (readGuardDrop 3).wakeWriter = decide ((3 : Nat) = 3)
    ∧ (readGuardDrop 3).newState = 3 - 2 :=
  ⟨(c7_read_release 3).1, (c7_read_release 3).2 (by decide) (by decide)⟩

/-- C8: one iteration of RwLock::write — when the observed state is at most 1
the code attempts the CAS to the all-ones write-locked sentinel and returns a
guard exactly on success (retrying with the CAS-returned value on failure);
otherwise, when the observed state is even, it attempts the CAS from s to
s + 1 setting the writer-waiting bit and retries from the top on failure; it
then blocks on writer_wake_counter exactly when the freshly loaded state is
at least 2, retrying from the top with the state reloaded after the wake, and
retries immediately without blocking when the fresh state shows no
contention. -/
theorem c8_write_loop :
    ∀ s a1 a2 w a3 a4 : Nat,
      (s ≤ 1 →
        (a1 = s →
          writeIter s a1 a2 w a3 a4 = ([.casWriteLock s u32Max true], .acquired))
        ∧ (a1 ≠ s →
          writeIter s a1 a2 w a3 a4 = ([.casWriteLock s u32Max false], .again a1)))
      ∧ (1 < s → s % 2 = 0 →
          (a2 ≠ s →
            writeIter s a1 a2 w a3 a4 = ([.casSetWaitBit s (s + 1) false], .again a2))
          ∧ (a2 = s → 2 ≤ a3 →
            writeIter s a1 a2 w a3 a4 =
              ([.casSetWaitBit s (s + 1) true, .loadWakeCounter w, .loadState a3,
                .futexWaitWriter w], .again a4))
          ∧ (a2 = s → a3 < 2 →
            writeIter s a1 a2 w a3 a4 =
              ([.casSetWaitBit s (s + 1) true, .loadWakeCounter w, .loadState a3],
                .again s)))
      ∧ (1 < s → s % 2 = 1 →
          (2 ≤ a3 →
            writeIter s a1 a2 w a3 a4 =
              ([.loadWakeCounter w, .loadState a3, .futexWaitWriter w], .again a4))
          ∧ (a3 < 2 →
            writeIter s a1 a2 w a3 a4 =
              ([.loadWakeCounter w, .loadState a3], .again s))) := by
  intro s a1 a2 w a3 a4
  unfold writeIter waitPart
  refine ⟨fun hs => ⟨fun he => ?_, fun hne => ?_⟩,
    fun hs hev => ⟨fun hne => ?_, fun he h3 => ?_, fun he h3 => ?_⟩,
    fun hs hod => ⟨fun h3 => ?_, fun h3 => ?_⟩⟩ <;>
    (split_ifs <;> first | rfl | omega)

/-- Witness for c8_write_loop: immediate acquisition at state 0, and the
set-bit-then-block path at state 2. -/
theorem c8_witness :
    writeIter 0 0 0 0 0 0 = ([.casWriteLock 0 u32Max true], .acquired)
    ∧ writeIter 2 9 2 5 3 1 =
        ([.casSetWaitBit 2 3 true, .loadWakeCounter 5, .loadState 3,
          .futexWaitWriter 5], .again 1) :=
  ⟨((c8_write_loop 0 0 0 0 0 0).1 (by decide)).1 rfl,
    ((c8_write_loop 2 9 2 5 3 1).2.1 (by decide) (by decide)).2.1 rfl (by decide)⟩

/-- C4 (evaluating the code): the overflow guards of the strong and weak
counters hold — Arc::clone aborts iff the pre-increment strong count exceeds
usize::MAX / 2, and Weak::upgrade fails its assert iff the observed strong
count exceeds usize::MAX / 2 — but the "too many readers" assert of
RwLock::read can never fire: it sits in the even branch yet compares the
observed state with the odd constant u32::MAX - 2, so no even state equals
it; at the largest even state 2^32 - 2 (2^31 - 1 readers) the read CAS
target (s + 2) mod 2^32 is 0 — the reader count silently wraps around
instead of being refused. -/
theorem c4_reader_limit_guard_dead :
    (∀ d : RC, (arcCloneFn d).isNone = decide (usizeHalf < d.strong))
  ∧ (∀ d : RC, (upgradeFn d).isAssertFailed = decide (usizeHalf < d.strong))
  ∧ (∀ s a1 a2 : Nat, (readIter s a1 a2).isAssertFailed = false)
  ∧ readIter (u32Mod - 2) (u32Mod - 2) 0 = .acquired 0 := by
  refine ⟨fun d => ?_, fun d => ?_, fun s a1 a2 => ?_, by decide⟩
  · unfold arcCloneFn
    split_ifs with h <;> simp [h]
  · unfold upgradeFn
    split_ifs with h1 h2 <;> simp [UpgradeRes.isAssertFailed, *]
  · unfold readIter u32Max
    split_ifs <;> first | rfl | omega

/-- C9 (evaluating the code): the strong-count fetch_sub of Arc::drop is
Relaxed in the code (arc.rs:209), not Release; the terminal path (previous
value 1) is the only one followed by an acquire fence; the clone fetch_add is
Relaxed and the weak-drop fetch_sub is Release. -/
theorem c9_arc_drop_ordering :
    arcDropCode.fetchSubOrder = MemOrder.relaxed
    ∧ (arcDropCode.fetchSubOrder == MemOrder.release) = false
    ∧ arcDropCode.fenceOnTerminal = some MemOrder.acquire
    ∧ arcDropCode.fenceOnNonTerminal = none
    ∧ arcCloneFetchAddOrder = MemOrder.relaxed
    ∧ weakDropFetchSubOrder = MemOrder.release := by
  refine ⟨rfl, rfl, rfl, rfl, rfl, rfl⟩

end LockLearning
